import Mathlib

/-! Verification of the resource-binding subsystem of nextpnr's `BaseArch`
(`src/common/base_arch.h`): the bel/wire/pip binding maps with their
bind/unbind protocol, the UI-refresh observer notifications, and the
one-time cell-type / bel-bucket indices.

Modelling conventions, matching the source:
* `BelId`, `WireId`, `PipId` are `Nat`, with `0` playing the role of the
  null handle (`BelId()` / `WireId()` / `PipId()` in the C++).
* `CellInfo *` / `NetInfo *` pointers become `CellId` / `NetId` (`Nat`),
  with the pointed-to records held in the architecture state (`cells`,
  `nets` fields), since the binding protocol mutates them through the
  pointer (`cell->bel`, `net->wires`).
* The `std::unordered_map` binding tables become total functions into
  `Option`: `operator[]` default-inserts a null pointer and `find` treats
  an absent key exactly like a stored null, so absent-vs-stored-null is
  unobservable and `Option`-valued functions are a faithful quotient.
  A net's `wires` map keeps genuine presence (`erase` vs stored entry is
  observable there), again as a function into `Option`.
* `NPNR_ASSERT` failures abort the process; every mutating operation
  therefore returns `Option ArchState`, `none` meaning the fatal path.
* `refreshUiBel` / `refreshUiWire` / `refreshUiPip` calls are recorded in
  a `notifications` log so observer behaviour is provable.
-/

namespace BaseArchModel

/-- Bel (placement site) handles; `0` is the null handle `BelId()`. -/
abbrev BelId := Nat

/-- Wire handles; `0` is the null handle `WireId()`. -/
abbrev WireId := Nat

/-- Pip handles; `0` is the null handle `PipId()`. -/
abbrev PipId := Nat

/-- Identifier of a `CellInfo` object owned by the netlist. -/
abbrev CellId := Nat

/-- Identifier of a `NetInfo` object owned by the netlist. -/
abbrev NetId := Nat

/-- Placement strength tags (`PlaceStrength` in `nextpnr_types.h`). -/
inductive PlaceStrength where
  | STRENGTH_NONE
  | STRENGTH_WEAK
  | STRENGTH_STRONG
  | STRENGTH_PLACER
  | STRENGTH_FIXED
  | STRENGTH_USER
  | STRENGTH_LOCKED
deriving DecidableEq, Repr

/-- The mutable fields of `CellInfo` touched by `BaseArch`: the cell's
current bel (`cell->bel`, `0` when unplaced) and its strength tag. -/
structure CellData where
  bel : BelId
  belStrength : PlaceStrength
deriving DecidableEq, Repr

/-- One entry of a net's wire map (`PipMap` in `nextpnr_types.h`): the
driving pip (`0` = `PipId()` = no driver) and the binding strength. -/
structure NetWireEntry where
  pip : PipId
  strength : PlaceStrength
deriving DecidableEq, Repr

/-- The mutable field of `NetInfo` touched by `BaseArch`: its wire map
`net->wires`, keyed by wire, with observable presence. -/
structure NetData where
  wires : WireId → Option NetWireEntry

/-- Observer notifications fired by the binding protocol
(`refreshUiBel` / `refreshUiWire` / `refreshUiPip`). -/
inductive UiEvent where
  | uiBel (bel : BelId)
  | uiWire (wire : WireId)
  | uiPip (pip : PipId)
deriving DecidableEq, Repr

/-- The state of a `BaseArch` instance: the three binding tables
(`base_bel2cell`, `base_wire2net`, `base_pip2net`), the referenced
netlist objects, and the log of observer notifications. -/
structure ArchState where
  base_bel2cell : BelId → Option CellId
  base_wire2net : WireId → Option NetId
  base_pip2net : PipId → Option NetId
  cells : CellId → CellData
  nets : NetId → NetData
  notifications : List UiEvent

/-- The device-description capability the binding protocol consumes:
`getPipDstWire`, the fixed destination wire of each pip. -/
structure Device where
  getPipDstWire : PipId → WireId

/-- Pointwise update of a function out of `Nat`, used for all map and
object mutations. -/
def fupd {β : Type} (f : Nat → β) (a : Nat) (b : β) : Nat → β :=
  fun x => if x = a then b else f x

@[simp] theorem fupd_same {β : Type} (f : Nat → β) (a : Nat) (b : β) :
    fupd f a b a = b := by
  simp [fupd]

/-- Freshly constructed architecture: all binding tables empty, all cells
unplaced, all net wire maps empty, no notifications. -/
def initState : ArchState where
  base_bel2cell := fun _ => none
  base_wire2net := fun _ => none
  base_pip2net := fun _ => none
  cells := fun _ => { bel := 0, belStrength := PlaceStrength.STRENGTH_NONE }
  nets := fun _ => { wires := fun _ => none }
  notifications := []

/-- `BaseArch::getBoundBelCell`: `find` on `base_bel2cell`, null when
absent. Total; never fatal. -/
def getBoundBelCell (s : ArchState) (bel : BelId) : Option CellId :=
  s.base_bel2cell bel

/-- `BaseArch::checkBelAvail`: `getBoundBelCell(bel) == nullptr`. -/
def checkBelAvail (s : ArchState) (bel : BelId) : Bool :=
  (getBoundBelCell s bel).isNone

/-- `BaseArch::getConflictingBelCell`: the current occupant. -/
def getConflictingBelCell (s : ArchState) (bel : BelId) : Option CellId :=
  getBoundBelCell s bel

/-- `BaseArch::getBoundWireNet`: `find` on `base_wire2net`, null when
absent. Total; never fatal. -/
def getBoundWireNet (s : ArchState) (wire : WireId) : Option NetId :=
  s.base_wire2net wire

/-- `BaseArch::checkWireAvail`: `getBoundWireNet(wire) == nullptr`. -/
def checkWireAvail (s : ArchState) (wire : WireId) : Bool :=
  (getBoundWireNet s wire).isNone

/-- `BaseArch::getBoundPipNet`: `find` on `base_pip2net`, null when
absent. Total; never fatal. -/
def getBoundPipNet (s : ArchState) (pip : PipId) : Option NetId :=
  s.base_pip2net pip

/-- `BaseArch::checkPipAvail`: `getBoundPipNet(pip) == nullptr`. -/
def checkPipAvail (s : ArchState) (pip : PipId) : Bool :=
  (getBoundPipNet s pip).isNone

/-- `BaseArch::bindBel`: asserts the handle non-null and the bel unbound,
then records mutual ownership (`cell->bel`, `cell->belStrength`, table
entry) and fires `refreshUiBel`. -/
def bindBel (s : ArchState) (bel : BelId) (cell : CellId)
    (strength : PlaceStrength) : Option ArchState :=
  if bel = 0 then none else
  match s.base_bel2cell bel with
  | some _ => none
  | none =>
      some { s with
        cells := fupd s.cells cell { bel := bel, belStrength := strength },
        base_bel2cell := fupd s.base_bel2cell bel (some cell),
        notifications := s.notifications ++ [UiEvent.uiBel bel] }

/-- `BaseArch::unbindBel`: asserts the handle non-null and the bel bound,
clears the occupant's `bel` field, resets its strength to
`STRENGTH_NONE`, clears the table entry and fires `refreshUiBel`. -/
def unbindBel (s : ArchState) (bel : BelId) : Option ArchState :=
  if bel = 0 then none else
  match s.base_bel2cell bel with
  | none => none
  | some c =>
      some { s with
        cells := fupd s.cells c { bel := 0, belStrength := PlaceStrength.STRENGTH_NONE },
        base_bel2cell := fupd s.base_bel2cell bel none,
        notifications := s.notifications ++ [UiEvent.uiBel bel] }

/-- `BaseArch::bindWire`: asserts the handle non-null and the wire
unbound, creates the net's wire entry with no driving pip and the given
strength, records ownership and fires `refreshUiWire`. -/
def bindWire (s : ArchState) (wire : WireId) (net : NetId)
    (strength : PlaceStrength) : Option ArchState :=
  if wire = 0 then none else
  match s.base_wire2net wire with
  | some _ => none
  | none =>
      some { s with
        nets := fupd s.nets net
          { wires := fupd (s.nets net).wires wire
              (some { pip := 0, strength := strength }) },
        base_wire2net := fupd s.base_wire2net wire (some net),
        notifications := s.notifications ++ [UiEvent.uiWire wire] }

/-- `BaseArch::unbindWire`: asserts the handle non-null, the wire bound,
and the owning net's wire entry present; if that entry has a driving pip
the pip's table entry is cleared too; then the entry is erased, ownership
cleared and `refreshUiWire` fired. -/
def unbindWire (s : ArchState) (wire : WireId) : Option ArchState :=
  if wire = 0 then none else
  match s.base_wire2net wire with
  | none => none
  | some n =>
      match (s.nets n).wires wire with
      | none => none
      | some e =>
          some { s with
            base_pip2net :=
              if e.pip = 0 then s.base_pip2net else fupd s.base_pip2net e.pip none,
            nets := fupd s.nets n { wires := fupd (s.nets n).wires wire none },
            base_wire2net := fupd s.base_wire2net wire none,
            notifications := s.notifications ++ [UiEvent.uiWire wire] }

/-- `BaseArch::bindPip`: asserts the handle non-null, the pip unbound and
its destination wire unbound; binds the pip, binds the destination wire
to the same net, and writes the net's wire entry with the pip as driver
and the given strength. Fires no observer notification. -/
def bindPip (A : Device) (s : ArchState) (pip : PipId) (net : NetId)
    (strength : PlaceStrength) : Option ArchState :=
  if pip = 0 then none else
  match s.base_pip2net pip with
  | some _ => none
  | none =>
      match s.base_wire2net (A.getPipDstWire pip) with
      | some _ => none
      | none =>
          some { s with
            base_pip2net := fupd s.base_pip2net pip (some net),
            base_wire2net := fupd s.base_wire2net (A.getPipDstWire pip) (some net),
            nets := fupd s.nets net
              { wires := fupd (s.nets net).wires (A.getPipDstWire pip)
                  (some { pip := pip, strength := strength }) } }

/-- `BaseArch::unbindPip`: asserts the handle non-null, the pip bound and
its destination wire bound; clears the destination wire's ownership,
erases the destination wire's entry from the pip's net, and clears the
pip's ownership. Fires no observer notification. -/
def unbindPip (A : Device) (s : ArchState) (pip : PipId) : Option ArchState :=
  if pip = 0 then none else
  match s.base_pip2net pip with
  | none => none
  | some n =>
      match s.base_wire2net (A.getPipDstWire pip) with
      | none => none
      | some _ =>
          some { s with
            base_wire2net := fupd s.base_wire2net (A.getPipDstWire pip) none,
            nets := fupd s.nets n
              { wires := fupd (s.nets n).wires (A.getPipDstWire pip) none },
            base_pip2net := fupd s.base_pip2net pip none }

/-- One binding-protocol operation, as invoked by a placer or router. -/
inductive Op where
  | opBindBel (bel : BelId) (cell : CellId) (strength : PlaceStrength)
  | opUnbindBel (bel : BelId)
  | opBindWire (wire : WireId) (net : NetId) (strength : PlaceStrength)
  | opUnbindWire (wire : WireId)
  | opBindPip (pip : PipId) (net : NetId) (strength : PlaceStrength)
  | opUnbindPip (pip : PipId)
deriving DecidableEq, Repr

/-- Dispatch one operation on the architecture state. -/
def applyOp (A : Device) (s : ArchState) : Op → Option ArchState
  | .opBindBel b c st => bindBel s b c st
  | .opUnbindBel b => unbindBel s b
  | .opBindWire w n st => bindWire s w n st
  | .opUnbindWire w => unbindWire s w
  | .opBindPip p n st => bindPip A s p n st
  | .opUnbindPip p => unbindPip A s p

/-- Run a sequence of operations; `none` as soon as one is fatal. -/
def runOps (A : Device) (s : ArchState) : List Op → Option ArchState
  | [] => some s
  | op :: ops =>
      match applyOp A s op with
      | none => none
      | some s1 => runOps A s1 ops

/-- States reachable from a fresh architecture by successful (hence
precondition-respecting) bind/unbind operations. -/
inductive Reachable (A : Device) : ArchState → Prop where
  | init : Reachable A initState
  | step {s s1 : ArchState} (op : Op) :
      Reachable A s → applyOp A s op = some s1 → Reachable A s1

/-- Extra precondition not checked by the code: a `bindBel` call must be
made with a currently unplaced cell. -/
def cellUnplacedPre (s : ArchState) : Op → Prop
  | .opBindBel _ c _ => (s.cells c).bel = 0
  | _ => True

/-- States reachable from a fresh architecture by successful operations
whose `bindBel` calls additionally respect `cellUnplacedPre`. -/
inductive ReachableStrict (A : Device) : ArchState → Prop where
  | init : ReachableStrict A initState
  | step {s s1 : ArchState} (op : Op) :
      ReachableStrict A s → cellUnplacedPre s op →
      applyOp A s op = some s1 → ReachableStrict A s1

/-- Example device used for concrete runs: pip `p` drives wire `p + 100`. -/
def dev0 : Device where
  getPipDstWire := fun p => p + 100

/-- Inductive invariant of the wire/pip layer: every bound wire has an
entry in its owning net's wire map, every entry points back to the net
owning its wire, an entry's non-null driving pip is bound to the same net
with this wire as destination, and every bound pip is recorded as driver
in its net's entry for its destination wire. -/
structure RouteInv (A : Device) (s : ArchState) : Prop where
  wire_entry : ∀ w n, s.base_wire2net w = some n →
      ∃ e, (s.nets n).wires w = some e
  entry_owner : ∀ n w e, (s.nets n).wires w = some e →
      s.base_wire2net w = some n
  entry_pip : ∀ n w e, (s.nets n).wires w = some e → e.pip ≠ 0 →
      s.base_pip2net e.pip = some n ∧ A.getPipDstWire e.pip = w
  pip_entry : ∀ p n, s.base_pip2net p = some n → p ≠ 0 ∧
      ∃ e, (s.nets n).wires (A.getPipDstWire p) = some e ∧ e.pip = p

/-- Bel-layer invariant: every bound bel is non-null and its occupant's
`bel` back-reference agrees with the table. -/
def BelInv (s : ArchState) : Prop :=
  ∀ b c, s.base_bel2cell b = some c → b ≠ 0 ∧ (s.cells c).bel = b

/-- The partial-bijection / back-reference invariant claimed by the spec:
with the binding tables modelled as functions, at most one owner per
resource holds structurally; the content is that a bound bel's occupant
points back at it (and hence owns no second bel), a bound wire has an
entry in its owning net's wire map, and a bound pip is recorded as the
driver of its destination wire's entry in its owning net's wire map. -/
def BindingInvariant (A : Device) (s : ArchState) : Prop :=
  (∀ b c, s.base_bel2cell b = some c → (s.cells c).bel = b) ∧
  (∀ b b' c, s.base_bel2cell b = some c → s.base_bel2cell b' = some c → b = b') ∧
  (∀ w n, s.base_wire2net w = some n → ∃ e, (s.nets n).wires w = some e) ∧
  (∀ p n, s.base_pip2net p = some n →
      ∃ e, (s.nets n).wires (A.getPipDstWire p) = some e ∧ e.pip = p)

/-- Operation sequence exhibiting the C1 gap: both `bindBel` calls meet
the stated precondition (bel valid and unbound) yet place one cell on two
bels. -/
def c1Ops : List Op :=
  [Op.opBindBel 1 7 PlaceStrength.STRENGTH_WEAK,
   Op.opBindBel 2 7 PlaceStrength.STRENGTH_WEAK]

/-- The state produced by `c1Ops`. -/
def c1State : ArchState := (runOps dev0 initState c1Ops).getD initState

/-- State after one well-formed `bindBel`, used as the C1 witness input. -/
def c1WitnessState : ArchState :=
  (applyOp dev0 initState (Op.opBindBel 1 7 PlaceStrength.STRENGTH_WEAK)).getD initState

/-- State after one successful `bindPip`, used as the C8 witness input. -/
def c8State : ArchState :=
  (applyOp dev0 initState (Op.opBindPip 5 3 PlaceStrength.STRENGTH_STRONG)).getD initState

/-- State with pip 5 bound to net 3, used as the C3 witness input. -/
def c3State : ArchState :=
  (bindPip dev0 initState 5 3 PlaceStrength.STRENGTH_STRONG).getD initState

/-- State whose wire 105 is driven by pip 5 for net 3, used as the C4
witness input. -/
def c4State : ArchState :=
  (bindPip dev0 initState 5 3 PlaceStrength.STRENGTH_WEAK).getD initState

/-- Notifications fired by one operation: `bindBel`/`unbindBel` call
`refreshUiBel`, `bindWire`/`unbindWire` call `refreshUiWire`, while
`bindPip`/`unbindPip` call nothing. -/
def notificationsOf : Op → List UiEvent
  | .opBindBel b _ _ => [UiEvent.uiBel b]
  | .opUnbindBel b => [UiEvent.uiBel b]
  | .opBindWire w _ _ => [UiEvent.uiWire w]
  | .opUnbindWire w => [UiEvent.uiWire w]
  | .opBindPip _ _ _ => []
  | .opUnbindPip _ => []

/-- The successful `bindPip` used to refute C6, and its result state. -/
def c6State : ArchState :=
  (applyOp dev0 initState (Op.opBindPip 5 3 PlaceStrength.STRENGTH_WEAK)).getD initState

/-- Result of a successful `bindBel`, used as the C6 witness. -/
def c6WitnessState : ArchState :=
  (applyOp dev0 initState (Op.opBindBel 1 7 PlaceStrength.STRENGTH_WEAK)).getD initState

/-- Modelled from the spec: `IdString` is the interned-symbol type from
`idstring.h`, which is not among the sources here; only its use as a
deterministically ordered symbol matters, and the spec's scenario orders
cell types as strings ("FF" before "LUT"), so it is modelled as `String`
with the lexicographic order. -/
abbrev IdString := String

/-- The cell-type / bel-bucket index fields of `BaseArch`, with the two
one-time initialisation flags. -/
structure BucketIndexState where
  cell_types : List IdString
  bel_buckets : List IdString
  bucket_bels : List (IdString × List BelId)
  cell_types_initialised : Bool
  bel_buckets_initialised : Bool

/-- Index state at construction: empty, with both flags false. -/
def initialBucketState : BucketIndexState where
  cell_types := []
  bel_buckets := []
  bucket_bels := []
  cell_types_initialised := false
  bel_buckets_initialised := false

/-- Lookup in the bucket association list (`bucket_bels.at`). -/
def assocFind : List (IdString × List BelId) → IdString → Option (List BelId)
  | [], _ => none
  | (k', v) :: rest, k => if k' = k then some v else assocFind rest k

/-- `BaseArch::getCellTypes`: asserts `cell_types_initialised` (fatal
before initialisation), then returns the frozen vector. -/
def getCellTypes (bst : BucketIndexState) : Option (List IdString) :=
  if bst.cell_types_initialised then some bst.cell_types else none

/-- `BaseArch::getBelBuckets`: asserts `bel_buckets_initialised`. -/
def getBelBuckets (bst : BucketIndexState) : Option (List IdString) :=
  if bst.bel_buckets_initialised then some bst.bel_buckets else none

/-- `BaseArch::getBelsInBucket`: asserts `bel_buckets_initialised`, then
looks the bucket up (`bucket_bels.at(bucket)`, also fatal if absent). -/
def getBelsInBucket (bst : BucketIndexState) (bucket : IdString) :
    Option (List BelId) :=
  if bst.bel_buckets_initialised then assocFind bst.bucket_bels bucket else none

/-- A state with bel 1 bound, for exercising the C7 witness. -/
def c7State : ArchState :=
  (bindBel initState 1 7 PlaceStrength.STRENGTH_WEAK).getD initState

/-- Default `getBelBucketByName` when `BelBucketId` is `IdString`
(`bbid_from_name`): the identity. -/
def getBelBucketByName (name : IdString) : IdString := name

/-- `BaseArch::getBelBucketForCellType` default: the bucket named after
the cell type. -/
def getBelBucketForCellType (cell_type : IdString) : IdString :=
  getBelBucketByName cell_type

/-- `BaseArch::getBelBucketForBel` default: the bucket of the bel's own
type. -/
def getBelBucketForBel (belType : BelId → IdString) (bel : BelId) : IdString :=
  getBelBucketForCellType (belType bel)

/-- `BaseArch::isValidBelForCellType` default: the cell type must equal
the bel's type. -/
def isValidBelForCellType (belType : BelId → IdString) (cell_type : IdString)
    (bel : BelId) : Bool :=
  cell_type = belType bel

/-- `bucket_bels[bucket]` evaluated for its side effect only
(`operator[]` default-constructs an empty bucket for an absent key). -/
def assocTouch : List (IdString × List BelId) → IdString →
    List (IdString × List BelId)
  | [], k => [(k, [])]
  | (k', v) :: rest, k =>
      if k' = k then (k', v) :: rest else (k', v) :: assocTouch rest k

/-- `bucket_bels[bucket].push_back(bel)`. -/
def assocPush : List (IdString × List BelId) → IdString → BelId →
    List (IdString × List BelId)
  | [], k, b => [(k, [b])]
  | (k', v) :: rest, k, b =>
      if k' = k then (k', v ++ [b]) :: rest else (k', v) :: assocPush rest k b

/-- Lexicographic order on character-code lists, the computable kernel of
the `IdString` order. -/
def charListLeb : List Char → List Char → Bool
  | [], _ => true
  | _ :: _, [] => false
  | a :: as, b :: bs =>
      if a.toNat < b.toNat then true
      else if b.toNat < a.toNat then false
      else charListLeb as bs

/-- Modelled from the spec: the deterministic order in which
`init_cell_types` / `init_bel_buckets` sort `IdString` values
(`idstring.h` is not among the sources here); the spec's scenario orders
cell types lexicographically ("FF" before "LUT"), so the order is
lexicographic on the character codes. -/
def idLe (a b : IdString) : Prop := charListLeb a.data b.data = true

instance : DecidableRel idLe := fun a b =>
  inferInstanceAs (Decidable (charListLeb a.data b.data = true))

/-- `BaseArch::init_cell_types`: collect every bel's type into a set
(deduplicate), copy out and sort. -/
def init_cell_types (bels : List BelId) (belType : BelId → IdString) :
    List IdString :=
  List.insertionSort idLe (List.dedup (bels.map belType))

/-- `BaseArch::init_bel_buckets`: create an empty bucket for every cell
type, append every bel to its bucket, then collect and sort the bucket
ids. Returns `(bucket_bels, bel_buckets)`. -/
def init_bel_buckets (cell_types : List IdString) (bels : List BelId)
    (belType : BelId → IdString) :
    List (IdString × List BelId) × List IdString :=
  let m0 := cell_types.foldl assocTouch []
  let m1 := bels.foldl (fun m b => assocPush m (getBelBucketForBel belType b) b) m0
  (m1, List.insertionSort idLe (m1.map Prod.fst))

/-- Running `init_cell_types` on the index state. -/
def runInitCellTypes (bels : List BelId) (belType : BelId → IdString)
    (bst : BucketIndexState) : BucketIndexState :=
  { bst with
    cell_types := init_cell_types bels belType,
    cell_types_initialised := true }

/-- Running `init_bel_buckets` on the index state; it reads
`getCellTypes()`, whose assertion makes it fatal before
`init_cell_types` has run. -/
def runInitBelBuckets (bels : List BelId) (belType : BelId → IdString)
    (bst : BucketIndexState) : Option BucketIndexState :=
  if bst.cell_types_initialised then
    some { bst with
      bucket_bels := (init_bel_buckets bst.cell_types bels belType).1,
      bel_buckets := (init_bel_buckets bst.cell_types bels belType).2,
      bel_buckets_initialised := true }
  else none

/-- Keys of the bucket association list. -/
def keysOf (m : List (IdString × List BelId)) : List IdString :=
  m.map Prod.fst

/-- Concatenation of all bucket contents. -/
def valsJoin (m : List (IdString × List BelId)) : List BelId :=
  (m.map Prod.snd).flatten

/-- The demo device of the spec scenario: bels A=1, B=2 of type LUT and
C=3 of type FF. -/
def demoBels : List BelId := [1, 2, 3]

/-- Bel types of the demo device. -/
def demoBelType : BelId → IdString :=
  fun b => if b = 3 then "FF" else "LUT"

/-- Does the operation bind this bel? -/
def bindsBel (b : BelId) : Op → Bool
  | .opBindBel b' _ _ => b' == b
  | _ => false

/-- Does the operation bind this wire, directly or as the bound pip's
destination wire? -/
def bindsWire (A : Device) (w : WireId) : Op → Bool
  | .opBindWire w' _ _ => w' == w
  | .opBindPip p _ _ => A.getPipDstWire p == w
  | _ => false

/-- Does the operation bind this pip? -/
def bindsPip (p : PipId) : Op → Bool
  | .opBindPip p' _ _ => p' == p
  | _ => false

/-- A run binding bel 1 and pip 5 (hence wire 105), for the C10 witness. -/
def c10Ops : List Op :=
  [Op.opBindBel 1 7 PlaceStrength.STRENGTH_WEAK,
   Op.opBindPip 5 3 PlaceStrength.STRENGTH_STRONG]

/-- The state after `c10Ops`. -/
def c10State : ArchState := (runOps dev0 initState c10Ops).getD initState

theorem fupd_ne {β : Type} (f : Nat → β) (a x : Nat) (b : β) (h : x ≠ a) :
    fupd f a b x = f x := by
  simp [fupd, h]

/-- Inversion of a successful `bindBel`: its assertions held and the
resulting state is the recorded update. -/
theorem bindBel_eq_some {s s' : ArchState} {b : BelId} {c : CellId} {st : PlaceStrength}
    (h : bindBel s b c st = some s') :
    b ≠ 0 ∧ s.base_bel2cell b = none ∧
      s' = { s with
        cells := fupd s.cells c { bel := b, belStrength := st },
        base_bel2cell := fupd s.base_bel2cell b (some c),
        notifications := s.notifications ++ [UiEvent.uiBel b] } := by
  unfold bindBel at h
  by_cases hb : b = 0
  · simp [hb] at h
  · rw [if_neg hb] at h
    cases hfnd : s.base_bel2cell b with
    | some c0 => rw [hfnd] at h; exact absurd h (by simp)
    | none =>
        rw [hfnd] at h
        simp only [Option.some.injEq] at h
        exact ⟨hb, rfl, h.symm⟩

/-- Inversion of a successful `unbindBel`. -/
theorem unbindBel_eq_some {s s' : ArchState} {b : BelId}
    (h : unbindBel s b = some s') :
    b ≠ 0 ∧ ∃ c, s.base_bel2cell b = some c ∧
      s' = { s with
        cells := fupd s.cells c { bel := 0, belStrength := PlaceStrength.STRENGTH_NONE },
        base_bel2cell := fupd s.base_bel2cell b none,
        notifications := s.notifications ++ [UiEvent.uiBel b] } := by
  unfold unbindBel at h
  by_cases hb : b = 0
  · simp [hb] at h
  · rw [if_neg hb] at h
    cases hfnd : s.base_bel2cell b with
    | none => rw [hfnd] at h; exact absurd h (by simp)
    | some c =>
        rw [hfnd] at h
        simp only [Option.some.injEq] at h
        exact ⟨hb, c, rfl, h.symm⟩

/-- Inversion of a successful `bindWire`. -/
theorem bindWire_eq_some {s s' : ArchState} {w : WireId} {n : NetId} {st : PlaceStrength}
    (h : bindWire s w n st = some s') :
    w ≠ 0 ∧ s.base_wire2net w = none ∧
      s' = { s with
        nets := fupd s.nets n
          { wires := fupd (s.nets n).wires w (some { pip := 0, strength := st }) },
        base_wire2net := fupd s.base_wire2net w (some n),
        notifications := s.notifications ++ [UiEvent.uiWire w] } := by
  unfold bindWire at h
  by_cases hw : w = 0
  · simp [hw] at h
  · rw [if_neg hw] at h
    cases hfnd : s.base_wire2net w with
    | some n0 => rw [hfnd] at h; exact absurd h (by simp)
    | none =>
        rw [hfnd] at h
        simp only [Option.some.injEq] at h
        exact ⟨hw, rfl, h.symm⟩

/-- Inversion of a successful `unbindWire`. -/
theorem unbindWire_eq_some {s s' : ArchState} {w : WireId}
    (h : unbindWire s w = some s') :
    w ≠ 0 ∧ ∃ n e, s.base_wire2net w = some n ∧ (s.nets n).wires w = some e ∧
      s' = { s with
        base_pip2net :=
          if e.pip = 0 then s.base_pip2net else fupd s.base_pip2net e.pip none,
        nets := fupd s.nets n { wires := fupd (s.nets n).wires w none },
        base_wire2net := fupd s.base_wire2net w none,
        notifications := s.notifications ++ [UiEvent.uiWire w] } := by
  unfold unbindWire at h
  by_cases hw : w = 0
  · simp [hw] at h
  · rw [if_neg hw] at h
    split at h
    · exact absurd h (by simp)
    · rename_i n hfnd
      split at h
      · exact absurd h (by simp)
      · rename_i e hent
        simp only [Option.some.injEq] at h
        exact ⟨hw, n, e, hfnd, hent, h.symm⟩

/-- Inversion of a successful `bindPip`. -/
theorem bindPip_eq_some {A : Device} {s s' : ArchState} {p : PipId} {n : NetId}
    {st : PlaceStrength} (h : bindPip A s p n st = some s') :
    p ≠ 0 ∧ s.base_pip2net p = none ∧ s.base_wire2net (A.getPipDstWire p) = none ∧
      s' = { s with
        base_pip2net := fupd s.base_pip2net p (some n),
        base_wire2net := fupd s.base_wire2net (A.getPipDstWire p) (some n),
        nets := fupd s.nets n
          { wires := fupd (s.nets n).wires (A.getPipDstWire p)
              (some { pip := p, strength := st }) } } := by
  unfold bindPip at h
  by_cases hp : p = 0
  · simp [hp] at h
  · rw [if_neg hp] at h
    split at h
    · exact absurd h (by simp)
    · rename_i hfnd
      split at h
      · exact absurd h (by simp)
      · rename_i hw
        simp only [Option.some.injEq] at h
        exact ⟨hp, hfnd, hw, h.symm⟩

/-- Inversion of a successful `unbindPip`. -/
theorem unbindPip_eq_some {A : Device} {s s' : ArchState} {p : PipId}
    (h : unbindPip A s p = some s') :
    p ≠ 0 ∧ ∃ n n2, s.base_pip2net p = some n ∧
      s.base_wire2net (A.getPipDstWire p) = some n2 ∧
      s' = { s with
        base_wire2net := fupd s.base_wire2net (A.getPipDstWire p) none,
        nets := fupd s.nets n
          { wires := fupd (s.nets n).wires (A.getPipDstWire p) none },
        base_pip2net := fupd s.base_pip2net p none } := by
  unfold unbindPip at h
  by_cases hp : p = 0
  · simp [hp] at h
  · rw [if_neg hp] at h
    split at h
    · exact absurd h (by simp)
    · rename_i n hfnd
      split at h
      · exact absurd h (by simp)
      · rename_i n2 hw
        simp only [Option.some.injEq] at h
        exact ⟨hp, n, n2, hfnd, hw, h.symm⟩

/-- The fresh architecture satisfies the routing invariant. -/
theorem routeInv_init (A : Device) : RouteInv A initState := by
  refine ⟨?_, ?_, ?_, ?_⟩ <;> intro _ _ h <;> simp [initState] at h ⊢

/-- `bindBel` touches no wire/pip structure, so it preserves `RouteInv`. -/
theorem routeInv_bindBel {A : Device} {s s' : ArchState} {b : BelId} {c : CellId}
    {st : PlaceStrength} (inv : RouteInv A s) (h : bindBel s b c st = some s') :
    RouteInv A s' := by
  obtain ⟨-, -, rfl⟩ := bindBel_eq_some h
  exact ⟨inv.wire_entry, inv.entry_owner, inv.entry_pip, inv.pip_entry⟩

/-- `unbindBel` touches no wire/pip structure, so it preserves `RouteInv`. -/
theorem routeInv_unbindBel {A : Device} {s s' : ArchState} {b : BelId}
    (inv : RouteInv A s) (h : unbindBel s b = some s') :
    RouteInv A s' := by
  obtain ⟨-, c, -, rfl⟩ := unbindBel_eq_some h
  exact ⟨inv.wire_entry, inv.entry_owner, inv.entry_pip, inv.pip_entry⟩

/-- `bindWire` preserves `RouteInv`. -/
theorem routeInv_bindWire {A : Device} {s s' : ArchState} {w : WireId} {n : NetId}
    {st : PlaceStrength} (inv : RouteInv A s) (h : bindWire s w n st = some s') :
    RouteInv A s' := by
  obtain ⟨hw0, hfree, rfl⟩ := bindWire_eq_some h
  refine ⟨?_, ?_, ?_, ?_⟩
  · -- wire_entry
    intro w' n' h'
    dsimp only at h' ⊢
    by_cases hww : w' = w
    · subst hww
      rw [fupd_same] at h'
      cases h'
      exact ⟨_, by rw [fupd_same]; dsimp only; rw [fupd_same]⟩
    · rw [fupd_ne _ _ _ _ hww] at h'
      obtain ⟨e, he⟩ := inv.wire_entry w' n' h'
      by_cases hnn : n' = n
      · subst hnn
        rw [fupd_same]
        dsimp only
        rw [fupd_ne _ _ _ _ hww]
        exact ⟨e, he⟩
      · rw [fupd_ne _ _ _ _ hnn]
        exact ⟨e, he⟩
  · -- entry_owner
    intro n' w' e' h'
    dsimp only at h' ⊢
    by_cases hnn : n' = n
    · subst hnn
      rw [fupd_same] at h'
      dsimp only at h'
      by_cases hww : w' = w
      · subst hww
        rw [fupd_same]
      · rw [fupd_ne _ _ _ _ hww] at h'
        rw [fupd_ne _ _ _ _ hww]
        exact inv.entry_owner _ _ _ h'
    · rw [fupd_ne _ _ _ _ hnn] at h'
      have hown := inv.entry_owner _ _ _ h'
      have hww : w' ≠ w := by
        intro hww
        subst hww
        rw [hfree] at hown
        cases hown
      rw [fupd_ne _ _ _ _ hww]
      exact hown
  · -- entry_pip
    intro n' w' e' h' hp
    dsimp only at h' ⊢
    by_cases hnn : n' = n
    · subst hnn
      rw [fupd_same] at h'
      dsimp only at h'
      by_cases hww : w' = w
      · subst hww
        rw [fupd_same] at h'
        cases h'
        exact absurd rfl hp
      · rw [fupd_ne _ _ _ _ hww] at h'
        exact inv.entry_pip _ _ _ h' hp
    · rw [fupd_ne _ _ _ _ hnn] at h'
      exact inv.entry_pip _ _ _ h' hp
  · -- pip_entry
    intro p n' h'
    dsimp only at h' ⊢
    obtain ⟨hp0, e, he, hep⟩ := inv.pip_entry p n' h'
    refine ⟨hp0, ?_⟩
    have hww : A.getPipDstWire p ≠ w := by
      intro hdw
      have hown := inv.entry_owner _ _ _ he
      rw [hdw, hfree] at hown
      cases hown
    by_cases hnn : n' = n
    · subst hnn
      rw [fupd_same]
      dsimp only
      rw [fupd_ne _ _ _ _ hww]
      exact ⟨e, he, hep⟩
    · rw [fupd_ne _ _ _ _ hnn]
      exact ⟨e, he, hep⟩

/-- `unbindWire` preserves `RouteInv`, including when it cascades into
clearing the driving pip's binding. -/
theorem routeInv_unbindWire {A : Device} {s s' : ArchState} {w : WireId}
    (inv : RouteInv A s) (h : unbindWire s w = some s') :
    RouteInv A s' := by
  obtain ⟨hw0, n, e, hb, he, rfl⟩ := unbindWire_eq_some h
  refine ⟨?_, ?_, ?_, ?_⟩
  · -- wire_entry
    intro w' n' h'
    dsimp only at h' ⊢
    have hww : w' ≠ w := by
      intro hww; subst hww; rw [fupd_same] at h'; cases h'
    rw [fupd_ne _ _ _ _ hww] at h'
    obtain ⟨e', he'⟩ := inv.wire_entry w' n' h'
    by_cases hnn : n' = n
    · subst hnn
      rw [fupd_same]
      dsimp only
      rw [fupd_ne _ _ _ _ hww]
      exact ⟨e', he'⟩
    · rw [fupd_ne _ _ _ _ hnn]
      exact ⟨e', he'⟩
  · -- entry_owner
    intro n' w' e' h'
    dsimp only at h' ⊢
    by_cases hnn : n' = n
    · subst hnn
      rw [fupd_same] at h'
      dsimp only at h'
      have hww : w' ≠ w := by
        intro hww; subst hww; rw [fupd_same] at h'; cases h'
      rw [fupd_ne _ _ _ _ hww] at h'
      rw [fupd_ne _ _ _ _ hww]
      exact inv.entry_owner _ _ _ h'
    · rw [fupd_ne _ _ _ _ hnn] at h'
      have hown := inv.entry_owner _ _ _ h'
      have hww : w' ≠ w := by
        intro hww
        subst hww
        rw [hb] at hown
        cases hown
        exact hnn rfl
      rw [fupd_ne _ _ _ _ hww]
      exact hown
  · -- entry_pip
    intro n' w' e' h' hp
    dsimp only at h' ⊢
    by_cases hnn : n' = n
    · subst hnn
      rw [fupd_same] at h'
      dsimp only at h'
      have hww : w' ≠ w := by
        intro hww; subst hww; rw [fupd_same] at h'; cases h'
      rw [fupd_ne _ _ _ _ hww] at h'
      obtain ⟨hpn, hpd⟩ := inv.entry_pip _ _ _ h' hp
      refine ⟨?_, hpd⟩
      by_cases hz : e.pip = 0
      · rw [if_pos hz]
        exact hpn
      · rw [if_neg hz]
        have hne : e'.pip ≠ e.pip := by
          intro heq
          obtain ⟨-, hed⟩ := inv.entry_pip _ _ _ he hz
          rw [heq, hed] at hpd
          exact hww hpd.symm
        rw [fupd_ne _ _ _ _ hne]
        exact hpn
    · rw [fupd_ne _ _ _ _ hnn] at h'
      obtain ⟨hpn, hpd⟩ := inv.entry_pip _ _ _ h' hp
      refine ⟨?_, hpd⟩
      by_cases hz : e.pip = 0
      · rw [if_pos hz]
        exact hpn
      · rw [if_neg hz]
        have hne : e'.pip ≠ e.pip := by
          intro heq
          obtain ⟨hen, -⟩ := inv.entry_pip _ _ _ he hz
          rw [heq, hen] at hpn
          cases hpn
          exact hnn rfl
        rw [fupd_ne _ _ _ _ hne]
        exact hpn
  · -- pip_entry
    intro p n' h'
    dsimp only at h' ⊢
    by_cases hz : e.pip = 0
    · rw [if_pos hz] at h'
      obtain ⟨hp0, e'', he'', hep⟩ := inv.pip_entry p n' h'
      refine ⟨hp0, ?_⟩
      by_cases hnn : n' = n
      · subst hnn
        have hdw : A.getPipDstWire p ≠ w := by
          intro hdw
          rw [hdw, he] at he''
          cases he''
          rw [hz] at hep
          exact hp0 hep.symm
        rw [fupd_same]
        dsimp only
        rw [fupd_ne _ _ _ _ hdw]
        exact ⟨e'', he'', hep⟩
      · rw [fupd_ne _ _ _ _ hnn]
        exact ⟨e'', he'', hep⟩
    · rw [if_neg hz] at h'
      have hpe : p ≠ e.pip := by
        intro hpe; subst hpe; rw [fupd_same] at h'; cases h'
      rw [fupd_ne _ _ _ _ hpe] at h'
      obtain ⟨hp0, e'', he'', hep⟩ := inv.pip_entry p n' h'
      refine ⟨hp0, ?_⟩
      by_cases hnn : n' = n
      · subst hnn
        have hdw : A.getPipDstWire p ≠ w := by
          intro hdw
          rw [hdw, he] at he''
          cases he''
          rw [hep] at hpe
          exact hpe rfl
        rw [fupd_same]
        dsimp only
        rw [fupd_ne _ _ _ _ hdw]
        exact ⟨e'', he'', hep⟩
      · rw [fupd_ne _ _ _ _ hnn]
        exact ⟨e'', he'', hep⟩

/-- `bindPip` preserves `RouteInv`. -/
theorem routeInv_bindPip {A : Device} {s s' : ArchState} {p : PipId} {n : NetId}
    {st : PlaceStrength} (inv : RouteInv A s) (h : bindPip A s p n st = some s') :
    RouteInv A s' := by
  obtain ⟨hp0, hpfree, hwfree, rfl⟩ := bindPip_eq_some h
  refine ⟨?_, ?_, ?_, ?_⟩
  · -- wire_entry
    intro w' n' h'
    dsimp only at h' ⊢
    by_cases hww : w' = A.getPipDstWire p
    · subst hww
      rw [fupd_same] at h'
      cases h'
      exact ⟨_, by rw [fupd_same]; dsimp only; rw [fupd_same]⟩
    · rw [fupd_ne _ _ _ _ hww] at h'
      obtain ⟨e', he'⟩ := inv.wire_entry w' n' h'
      by_cases hnn : n' = n
      · subst hnn
        rw [fupd_same]
        dsimp only
        rw [fupd_ne _ _ _ _ hww]
        exact ⟨e', he'⟩
      · rw [fupd_ne _ _ _ _ hnn]
        exact ⟨e', he'⟩
  · -- entry_owner
    intro n' w' e' h'
    dsimp only at h' ⊢
    by_cases hnn : n' = n
    · subst hnn
      rw [fupd_same] at h'
      dsimp only at h'
      by_cases hww : w' = A.getPipDstWire p
      · subst hww
        rw [fupd_same]
      · rw [fupd_ne _ _ _ _ hww] at h'
        rw [fupd_ne _ _ _ _ hww]
        exact inv.entry_owner _ _ _ h'
    · rw [fupd_ne _ _ _ _ hnn] at h'
      have hown := inv.entry_owner _ _ _ h'
      have hww : w' ≠ A.getPipDstWire p := by
        intro hww
        rw [hww, hwfree] at hown
        cases hown
      rw [fupd_ne _ _ _ _ hww]
      exact hown
  · -- entry_pip
    intro n' w' e' h' hp'
    dsimp only at h' ⊢
    by_cases hnn : n' = n
    · subst hnn
      rw [fupd_same] at h'
      dsimp only at h'
      by_cases hww : w' = A.getPipDstWire p
      · subst hww
        rw [fupd_same] at h'
        cases h'
        exact ⟨by rw [fupd_same], rfl⟩
      · rw [fupd_ne _ _ _ _ hww] at h'
        obtain ⟨hpn, hpd⟩ := inv.entry_pip _ _ _ h' hp'
        have hne : e'.pip ≠ p := by
          intro heq
          rw [heq, hpfree] at hpn
          cases hpn
        rw [fupd_ne _ _ _ _ hne]
        exact ⟨hpn, hpd⟩
    · rw [fupd_ne _ _ _ _ hnn] at h'
      obtain ⟨hpn, hpd⟩ := inv.entry_pip _ _ _ h' hp'
      have hne : e'.pip ≠ p := by
        intro heq
        rw [heq, hpfree] at hpn
        cases hpn
      rw [fupd_ne _ _ _ _ hne]
      exact ⟨hpn, hpd⟩
  · -- pip_entry
    intro p' n' h'
    dsimp only at h' ⊢
    by_cases hpp : p' = p
    · subst hpp
      rw [fupd_same] at h'
      cases h'
      refine ⟨hp0, { pip := p', strength := st }, ?_, rfl⟩
      rw [fupd_same]
      dsimp only
      rw [fupd_same]
    · rw [fupd_ne _ _ _ _ hpp] at h'
      obtain ⟨hq0, e'', he'', hep⟩ := inv.pip_entry p' n' h'
      refine ⟨hq0, ?_⟩
      by_cases hnn : n' = n
      · subst hnn
        have hdw : A.getPipDstWire p' ≠ A.getPipDstWire p := by
          intro hdw
          have hown := inv.entry_owner _ _ _ he''
          rw [hdw, hwfree] at hown
          cases hown
        rw [fupd_same]
        dsimp only
        rw [fupd_ne _ _ _ _ hdw]
        exact ⟨e'', he'', hep⟩
      · rw [fupd_ne _ _ _ _ hnn]
        exact ⟨e'', he'', hep⟩

/-- `unbindPip` preserves `RouteInv`. -/
theorem routeInv_unbindPip {A : Device} {s s' : ArchState} {p : PipId}
    (inv : RouteInv A s) (h : unbindPip A s p = some s') :
    RouteInv A s' := by
  obtain ⟨hp0, n, n2, hpb, hwb, rfl⟩ := unbindPip_eq_some h
  obtain ⟨-, e, he, hep⟩ := inv.pip_entry p n hpb
  have hdn : s.base_wire2net (A.getPipDstWire p) = some n := inv.entry_owner _ _ _ he
  refine ⟨?_, ?_, ?_, ?_⟩
  · -- wire_entry
    intro w' n' h'
    dsimp only at h' ⊢
    have hww : w' ≠ A.getPipDstWire p := by
      intro hww; subst hww; rw [fupd_same] at h'; cases h'
    rw [fupd_ne _ _ _ _ hww] at h'
    obtain ⟨e', he'⟩ := inv.wire_entry w' n' h'
    by_cases hnn : n' = n
    · subst hnn
      rw [fupd_same]
      dsimp only
      rw [fupd_ne _ _ _ _ hww]
      exact ⟨e', he'⟩
    · rw [fupd_ne _ _ _ _ hnn]
      exact ⟨e', he'⟩
  · -- entry_owner
    intro n' w' e' h'
    dsimp only at h' ⊢
    by_cases hnn : n' = n
    · subst hnn
      rw [fupd_same] at h'
      dsimp only at h'
      have hww : w' ≠ A.getPipDstWire p := by
        intro hww; subst hww; rw [fupd_same] at h'; cases h'
      rw [fupd_ne _ _ _ _ hww] at h'
      rw [fupd_ne _ _ _ _ hww]
      exact inv.entry_owner _ _ _ h'
    · rw [fupd_ne _ _ _ _ hnn] at h'
      have hown := inv.entry_owner _ _ _ h'
      have hww : w' ≠ A.getPipDstWire p := by
        intro hww
        rw [hww, hdn] at hown
        cases hown
        exact hnn rfl
      rw [fupd_ne _ _ _ _ hww]
      exact hown
  · -- entry_pip
    intro n' w' e' h' hp'
    dsimp only at h' ⊢
    by_cases hnn : n' = n
    · subst hnn
      rw [fupd_same] at h'
      dsimp only at h'
      have hww : w' ≠ A.getPipDstWire p := by
        intro hww; subst hww; rw [fupd_same] at h'; cases h'
      rw [fupd_ne _ _ _ _ hww] at h'
      obtain ⟨hpn, hpd⟩ := inv.entry_pip _ _ _ h' hp'
      have hne : e'.pip ≠ p := by
        intro heq
        rw [heq] at hpd
        exact hww hpd.symm
      rw [fupd_ne _ _ _ _ hne]
      exact ⟨hpn, hpd⟩
    · rw [fupd_ne _ _ _ _ hnn] at h'
      obtain ⟨hpn, hpd⟩ := inv.entry_pip _ _ _ h' hp'
      have hne : e'.pip ≠ p := by
        intro heq
        rw [heq, hpb] at hpn
        cases hpn
        exact hnn rfl
      rw [fupd_ne _ _ _ _ hne]
      exact ⟨hpn, hpd⟩
  · -- pip_entry
    intro p' n' h'
    dsimp only at h' ⊢
    have hpp : p' ≠ p := by
      intro hpp; subst hpp; rw [fupd_same] at h'; cases h'
    rw [fupd_ne _ _ _ _ hpp] at h'
    obtain ⟨hq0, e'', he'', hep'⟩ := inv.pip_entry p' n' h'
    refine ⟨hq0, ?_⟩
    by_cases hnn : n' = n
    · subst hnn
      have hdw : A.getPipDstWire p' ≠ A.getPipDstWire p := by
        intro hdw
        rw [hdw, he] at he''
        cases he''
        rw [hep] at hep'
        exact hpp hep'.symm
      rw [fupd_same]
      dsimp only
      rw [fupd_ne _ _ _ _ hdw]
      exact ⟨e'', he'', hep'⟩
    · rw [fupd_ne _ _ _ _ hnn]
      exact ⟨e'', he'', hep'⟩

/-- Every successful operation preserves `RouteInv`. -/
theorem routeInv_applyOp {A : Device} {s s' : ArchState} {op : Op}
    (inv : RouteInv A s) (h : applyOp A s op = some s') : RouteInv A s' := by
  cases op with
  | opBindBel b c st => exact routeInv_bindBel inv h
  | opUnbindBel b => exact routeInv_unbindBel inv h
  | opBindWire w n st => exact routeInv_bindWire inv h
  | opUnbindWire w => exact routeInv_unbindWire inv h
  | opBindPip p n st => exact routeInv_bindPip inv h
  | opUnbindPip p => exact routeInv_unbindPip inv h

/-- Every reachable state satisfies the routing invariant. -/
theorem reachable_routeInv {A : Device} {s : ArchState} (h : Reachable A s) :
    RouteInv A s := by
  induction h with
  | init => exact routeInv_init A
  | step op _ hstep ih => exact routeInv_applyOp ih hstep

/-- The fresh architecture satisfies the bel-layer invariant. -/
theorem belInv_init : BelInv initState := by
  intro b c h
  simp [initState] at h

/-- `bindBel` on a currently unplaced cell preserves `BelInv`. -/
theorem belInv_bindBel {s s' : ArchState} {b : BelId} {c : CellId} {st : PlaceStrength}
    (inv : BelInv s) (hpre : (s.cells c).bel = 0) (h : bindBel s b c st = some s') :
    BelInv s' := by
  obtain ⟨hb0, hfree, rfl⟩ := bindBel_eq_some h
  intro b' c' h'
  dsimp only at h' ⊢
  by_cases hbb : b' = b
  · subst hbb
    rw [fupd_same] at h'
    cases h'
    exact ⟨hb0, by rw [fupd_same]⟩
  · rw [fupd_ne _ _ _ _ hbb] at h'
    obtain ⟨hb'0, hback⟩ := inv b' c' h'
    have hcc : c' ≠ c := by
      intro hcc
      subst hcc
      rw [hpre] at hback
      exact hb'0 hback.symm
    rw [fupd_ne _ _ _ _ hcc]
    exact ⟨hb'0, hback⟩

/-- `unbindBel` preserves `BelInv`. -/
theorem belInv_unbindBel {s s' : ArchState} {b : BelId}
    (inv : BelInv s) (h : unbindBel s b = some s') : BelInv s' := by
  obtain ⟨hb0, c, hfnd, rfl⟩ := unbindBel_eq_some h
  intro b' c' h'
  dsimp only at h' ⊢
  have hbb : b' ≠ b := by
    intro hbb; subst hbb; rw [fupd_same] at h'; cases h'
  rw [fupd_ne _ _ _ _ hbb] at h'
  obtain ⟨hb'0, hback⟩ := inv b' c' h'
  have hcc : c' ≠ c := by
    intro hcc
    subst hcc
    obtain ⟨-, hcb⟩ := inv b c' hfnd
    rw [hcb] at hback
    exact hbb hback.symm
  rw [fupd_ne _ _ _ _ hcc]
  exact ⟨hb'0, hback⟩

/-- Wire and pip operations do not touch `base_bel2cell` or `cells`. -/
theorem belInv_applyOp {A : Device} {s s' : ArchState} {op : Op}
    (inv : BelInv s) (hpre : cellUnplacedPre s op) (h : applyOp A s op = some s') :
    BelInv s' := by
  cases op with
  | opBindBel b c st => exact belInv_bindBel inv hpre h
  | opUnbindBel b => exact belInv_unbindBel inv h
  | opBindWire w n st =>
      obtain ⟨-, -, rfl⟩ := bindWire_eq_some h
      exact inv
  | opUnbindWire w =>
      obtain ⟨-, n, e, -, -, rfl⟩ := unbindWire_eq_some h
      exact inv
  | opBindPip p n st =>
      obtain ⟨-, -, -, rfl⟩ := bindPip_eq_some h
      exact inv
  | opUnbindPip p =>
      obtain ⟨-, n, n2, -, -, rfl⟩ := unbindPip_eq_some h
      exact inv

/-- Every strictly reachable state satisfies the bel-layer invariant. -/
theorem reachableStrict_belInv {A : Device} {s : ArchState}
    (h : ReachableStrict A s) : BelInv s := by
  induction h with
  | init => exact belInv_init
  | step op _ hpre hstep ih => exact belInv_applyOp ih hpre hstep

/-- Forgetting the cell-unplaced side condition. -/
theorem reachableStrict_reachable {A : Device} {s : ArchState}
    (h : ReachableStrict A s) : Reachable A s := by
  induction h with
  | init => exact Reachable.init
  | step op _ _ hstep ih => exact Reachable.step op ih hstep

/-- C1, as stated, is false: the sequence `c1Ops` satisfies each
operation's stated precondition (every call succeeds, i.e. every
`NPNR_ASSERT` passes: each bel is valid and unbound at bind time), yet
the resulting state violates the partial-bijection invariant — bel 1 is
mapped to cell 7 while cell 7's back-reference points at bel 2. The code
never checks that the cell of a `bindBel` call is currently unplaced. -/
theorem C1_counterexample_cell_rebound :
    runOps dev0 initState c1Ops = some c1State ∧
      ¬ BindingInvariant dev0 c1State := by
  refine ⟨rfl, ?_⟩
  intro hinv
  have h1 : c1State.base_bel2cell 1 = some 7 := rfl
  have h2 := hinv.1 1 7 h1
  exact absurd h2 (by decide)

/-- C1 (amended): every sequence of bind/unbind operations that satisfies
each operation's stated precondition and, additionally, performs
`bindBel` only with a currently unplaced cell, preserves the
partial-bijection invariant: each resource has at most one owner and a
bound resource's owner back-reference (the cell's current-bel field, or
the net's wire-map entry) agrees with the map entry. -/
theorem C1_strict_sequences_preserve_binding_invariant {A : Device}
    {s : ArchState} (h : ReachableStrict A s) : BindingInvariant A s := by
  have hbel := reachableStrict_belInv h
  have hroute := reachable_routeInv (reachableStrict_reachable h)
  refine ⟨?_, ?_, ?_, ?_⟩
  · intro b c hb
    exact (hbel b c hb).2
  · intro b b' c hb hb'
    exact ((hbel b c hb).2).symm.trans (hbel b' c hb').2
  · intro w n hw
    exact hroute.wire_entry w n hw
  · intro p n hp
    exact (hroute.pip_entry p n hp).2

/-- Witness for C1: the amended theorem applied to a concrete strictly
reachable state, one well-formed `bindBel` away from the fresh
architecture. -/
theorem C1_strict_sequences_preserve_binding_invariant_witness :
    BindingInvariant dev0 c1WitnessState :=
  C1_strict_sequences_preserve_binding_invariant
    (ReachableStrict.step (Op.opBindBel 1 7 PlaceStrength.STRENGTH_WEAK)
      ReachableStrict.init rfl rfl)

/-- C8: in every state reachable by precondition-respecting bind/unbind
sequences, a pip bound to a net has its fixed destination wire bound to
the same net; no operation (including `unbindWire` on the destination
wire, which cascades into unbinding the pip) can leave a bound pip whose
destination wire is unbound or owned by a different net. -/
theorem C8_bound_pip_dst_wire_same_net {A : Device} {s : ArchState}
    (h : Reachable A s) (p : PipId) (n : NetId)
    (hb : getBoundPipNet s p = some n) :
    getBoundWireNet s (A.getPipDstWire p) = some n := by
  have hroute := reachable_routeInv h
  obtain ⟨-, e, he, -⟩ := hroute.pip_entry p n hb
  exact hroute.entry_owner _ _ _ he

/-- Witness for C8 at a concrete reachable state with a bound pip. -/
theorem C8_bound_pip_dst_wire_same_net_witness :
    getBoundWireNet c8State (dev0.getPipDstWire 5) = some 3 :=
  C8_bound_pip_dst_wire_same_net
    (Reachable.step (Op.opBindPip 5 3 PlaceStrength.STRENGTH_STRONG)
      Reachable.init rfl)
    5 3 rfl

/-- Forward evaluation of `bindBel` when its assertions hold. -/
theorem bindBel_success {s : ArchState} {b : BelId} (c : CellId) (st : PlaceStrength)
    (hb : b ≠ 0) (hfree : s.base_bel2cell b = none) :
    bindBel s b c st = some { s with
      cells := fupd s.cells c { bel := b, belStrength := st },
      base_bel2cell := fupd s.base_bel2cell b (some c),
      notifications := s.notifications ++ [UiEvent.uiBel b] } := by
  unfold bindBel
  rw [if_neg hb, hfree]

/-- Forward evaluation of `unbindBel` when its assertions hold. -/
theorem unbindBel_success {s : ArchState} {b : BelId} {c : CellId}
    (hb : b ≠ 0) (hfnd : s.base_bel2cell b = some c) :
    unbindBel s b = some { s with
      cells := fupd s.cells c { bel := 0, belStrength := PlaceStrength.STRENGTH_NONE },
      base_bel2cell := fupd s.base_bel2cell b none,
      notifications := s.notifications ++ [UiEvent.uiBel b] } := by
  unfold unbindBel
  rw [if_neg hb, hfnd]

/-- Forward evaluation of `bindWire` when its assertions hold. -/
theorem bindWire_success {s : ArchState} {w : WireId} (n : NetId) (st : PlaceStrength)
    (hw : w ≠ 0) (hfree : s.base_wire2net w = none) :
    bindWire s w n st = some { s with
      nets := fupd s.nets n
        { wires := fupd (s.nets n).wires w (some { pip := 0, strength := st }) },
      base_wire2net := fupd s.base_wire2net w (some n),
      notifications := s.notifications ++ [UiEvent.uiWire w] } := by
  unfold bindWire
  rw [if_neg hw, hfree]

/-- Forward evaluation of `unbindWire` when its assertions hold. -/
theorem unbindWire_success {s : ArchState} {w : WireId} {n : NetId} {e : NetWireEntry}
    (hw : w ≠ 0) (hb : s.base_wire2net w = some n) (he : (s.nets n).wires w = some e) :
    unbindWire s w = some { s with
      base_pip2net :=
        if e.pip = 0 then s.base_pip2net else fupd s.base_pip2net e.pip none,
      nets := fupd s.nets n { wires := fupd (s.nets n).wires w none },
      base_wire2net := fupd s.base_wire2net w none,
      notifications := s.notifications ++ [UiEvent.uiWire w] } := by
  unfold unbindWire
  rw [if_neg hw, hb]
  dsimp only
  rw [he]

/-- Forward evaluation of `bindPip` when its assertions hold. -/
theorem bindPip_success {A : Device} {s : ArchState} {p : PipId} (n : NetId)
    (st : PlaceStrength) (hp : p ≠ 0) (hpfree : s.base_pip2net p = none)
    (hwfree : s.base_wire2net (A.getPipDstWire p) = none) :
    bindPip A s p n st = some { s with
      base_pip2net := fupd s.base_pip2net p (some n),
      base_wire2net := fupd s.base_wire2net (A.getPipDstWire p) (some n),
      nets := fupd s.nets n
        { wires := fupd (s.nets n).wires (A.getPipDstWire p)
            (some { pip := p, strength := st }) } } := by
  unfold bindPip
  rw [if_neg hp, hpfree, hwfree]

/-- Forward evaluation of `unbindPip` when its assertions hold. -/
theorem unbindPip_success {A : Device} {s : ArchState} {p : PipId} {n n2 : NetId}
    (hp : p ≠ 0) (hpb : s.base_pip2net p = some n)
    (hwb : s.base_wire2net (A.getPipDstWire p) = some n2) :
    unbindPip A s p = some { s with
      base_wire2net := fupd s.base_wire2net (A.getPipDstWire p) none,
      nets := fupd s.nets n
        { wires := fupd (s.nets n).wires (A.getPipDstWire p) none },
      base_pip2net := fupd s.base_pip2net p none } := by
  unfold unbindPip
  rw [if_neg hp, hpb, hwb]

/-- C2: for a pip `p` with destination wire `w`, `bindPip p n st` is fatal
whenever `p` or `w` is already bound, and otherwise binds `p` to `n`, binds
`w` to the same net `n`, and records `p` as `w`'s driver with strength `st`
in `n`'s wire map. -/
theorem C2_bindPip_binds_dst_wire (A : Device) (s : ArchState) (p : PipId)
    (n : NetId) (st : PlaceStrength) (hp : p ≠ 0) :
    ((getBoundPipNet s p ≠ none ∨ getBoundWireNet s (A.getPipDstWire p) ≠ none) →
        bindPip A s p n st = none) ∧
    (getBoundPipNet s p = none → getBoundWireNet s (A.getPipDstWire p) = none →
      ∃ s', bindPip A s p n st = some s' ∧
        getBoundPipNet s' p = some n ∧
        getBoundWireNet s' (A.getPipDstWire p) = some n ∧
        (s'.nets n).wires (A.getPipDstWire p) = some { pip := p, strength := st }) := by
  constructor
  · intro hcase
    unfold bindPip
    rw [if_neg hp]
    cases hfnd : s.base_pip2net p with
    | some n0 => rfl
    | none =>
        cases hwf : s.base_wire2net (A.getPipDstWire p) with
        | some n0 => rfl
        | none =>
            rcases hcase with hcb | hcb
            · exact absurd hfnd hcb
            · exact absurd hwf hcb
  · intro hp2 hw2
    have hp2' : s.base_pip2net p = none := hp2
    have hw2' : s.base_wire2net (A.getPipDstWire p) = none := hw2
    refine ⟨_, bindPip_success n st hp hp2' hw2', ?_, ?_, ?_⟩
    · simp [getBoundPipNet, fupd]
    · simp [getBoundWireNet, fupd]
    · simp [fupd]

/-- Witness for C2 on a fresh architecture: pip 5 of `dev0` drives wire
105; binding it to net 3 binds the wire too and records the driver. -/
theorem C2_bindPip_binds_dst_wire_witness :
    ∃ s', bindPip dev0 initState 5 3 PlaceStrength.STRENGTH_WEAK = some s' ∧
      getBoundPipNet s' 5 = some 3 ∧
      getBoundWireNet s' (dev0.getPipDstWire 5) = some 3 ∧
      (s'.nets 3).wires (dev0.getPipDstWire 5) =
        some { pip := 5, strength := PlaceStrength.STRENGTH_WEAK } :=
  (C2_bindPip_binds_dst_wire dev0 initState 5 3 PlaceStrength.STRENGTH_WEAK
    (by decide)).2 rfl rfl

/-- C3: for a bound pip `p` whose destination wire is owned by the same
net `n`, `unbindPip p` clears the pip's ownership, clears the destination
wire's ownership, and removes the wire's entry from `n`'s wire map
entirely. -/
theorem C3_unbindPip_clears_pip_wire_and_entry (A : Device) (s : ArchState)
    (p : PipId) (n : NetId) (hp : p ≠ 0) (hbp : getBoundPipNet s p = some n)
    (hbw : getBoundWireNet s (A.getPipDstWire p) = some n) :
    ∃ s', unbindPip A s p = some s' ∧
      getBoundPipNet s' p = none ∧
      getBoundWireNet s' (A.getPipDstWire p) = none ∧
      (s'.nets n).wires (A.getPipDstWire p) = none := by
  have hbp' : s.base_pip2net p = some n := hbp
  have hbw' : s.base_wire2net (A.getPipDstWire p) = some n := hbw
  refine ⟨_, unbindPip_success hp hbp' hbw', ?_, ?_, ?_⟩
  · simp [getBoundPipNet, fupd]
  · simp [getBoundWireNet, fupd]
  · simp [fupd]

/-- Witness for C3 at the concrete state with pip 5 bound to net 3. -/
theorem C3_unbindPip_clears_pip_wire_and_entry_witness :
    ∃ s', unbindPip dev0 c3State 5 = some s' ∧
      getBoundPipNet s' 5 = none ∧
      getBoundWireNet s' (dev0.getPipDstWire 5) = none ∧
      (s'.nets 3).wires (dev0.getPipDstWire 5) = none :=
  C3_unbindPip_clears_pip_wire_and_entry dev0 c3State 5 3 (by decide) rfl rfl

/-- C4: for a bound wire `w` whose entry in its owning net `n` records
driving pip `e.pip`, `unbindWire w` clears that pip's binding (when there
is one) while touching no other pip binding and no other net wire entry,
erases `w`'s entry from `n`'s wire map and clears `w`'s ownership; with no
driving pip the pip table is untouched entirely. -/
theorem C4_unbindWire_cascades_to_driving_pip (s : ArchState) (w : WireId)
    (n : NetId) (e : NetWireEntry) (hw : w ≠ 0)
    (hbw : getBoundWireNet s w = some n) (he : (s.nets n).wires w = some e) :
    ∃ s', unbindWire s w = some s' ∧
      getBoundWireNet s' w = none ∧
      (s'.nets n).wires w = none ∧
      (e.pip ≠ 0 → getBoundPipNet s' e.pip = none) ∧
      (e.pip = 0 → s'.base_pip2net = s.base_pip2net) ∧
      (∀ p, p ≠ e.pip → getBoundPipNet s' p = getBoundPipNet s p) ∧
      (∀ n' w', ¬(n' = n ∧ w' = w) → (s'.nets n').wires w' = (s.nets n').wires w') := by
  have hbw' : s.base_wire2net w = some n := hbw
  refine ⟨_, unbindWire_success hw hbw' he, ?_, ?_, ?_, ?_, ?_, ?_⟩
  · simp [getBoundWireNet, fupd]
  · simp [fupd]
  · intro hnz
    simp [getBoundPipNet, fupd, hnz]
  · intro hz
    simp [hz]
  · intro p hpe
    by_cases hz : e.pip = 0
    · simp [getBoundPipNet, hz]
    · simp [getBoundPipNet, fupd, hz, hpe]
  · intro n' w' hnw
    by_cases hnn : n' = n
    · subst hnn
      have hww : w' ≠ w := fun hww => hnw ⟨rfl, hww⟩
      simp [fupd, hww]
    · simp [fupd, hnn]

/-- Witness for C4: unbinding wire 105, driven by pip 5, also clears pip
5's binding although only the wire-level call was made. -/
theorem C4_unbindWire_cascades_to_driving_pip_witness :
    ∃ s', unbindWire c4State 105 = some s' ∧
      getBoundWireNet s' 105 = none ∧
      (s'.nets 3).wires 105 = none ∧
      ((5 : PipId) ≠ 0 → getBoundPipNet s' 5 = none) ∧
      ((5 : PipId) = 0 → s'.base_pip2net = c4State.base_pip2net) ∧
      (∀ p, p ≠ 5 → getBoundPipNet s' p = getBoundPipNet c4State p) ∧
      (∀ n' w', ¬(n' = 3 ∧ w' = 105) →
        (s'.nets n').wires w' = (c4State.nets n').wires w') :=
  C4_unbindWire_cascades_to_driving_pip c4State 105 3
    { pip := 5, strength := PlaceStrength.STRENGTH_WEAK } (by decide) rfl rfl

/-- C5: binding a valid unbound bel makes it unavailable with the bound
cell as owner and the given strength; a subsequent unbind makes it
available again, with no owner and the cell's strength reset to
`STRENGTH_NONE`. -/
theorem C5_bel_bind_unbind_roundtrip (s : ArchState) (b : BelId) (c : CellId)
    (st : PlaceStrength) (hb : b ≠ 0) (hfree : getBoundBelCell s b = none) :
    ∃ s1, bindBel s b c st = some s1 ∧
      checkBelAvail s1 b = false ∧ getBoundBelCell s1 b = some c ∧
      (s1.cells c).belStrength = st ∧
      ∃ s2, unbindBel s1 b = some s2 ∧
        checkBelAvail s2 b = true ∧ getBoundBelCell s2 b = none ∧
        (s2.cells c).belStrength = PlaceStrength.STRENGTH_NONE := by
  have hfree' : s.base_bel2cell b = none := hfree
  refine ⟨_, bindBel_success c st hb hfree', ?_, ?_, ?_, ?_⟩
  · simp [checkBelAvail, getBoundBelCell, fupd]
  · simp [getBoundBelCell, fupd]
  · simp [fupd]
  · refine ⟨_, unbindBel_success hb (fupd_same _ _ _), ?_, ?_, ?_⟩
    · simp [checkBelAvail, getBoundBelCell, fupd]
    · simp [getBoundBelCell, fupd]
    · simp [fupd]

/-- Witness for C5 on a fresh architecture at bel 1 and cell 7. -/
theorem C5_bel_bind_unbind_roundtrip_witness :
    ∃ s1, bindBel initState 1 7 PlaceStrength.STRENGTH_USER = some s1 ∧
      checkBelAvail s1 1 = false ∧ getBoundBelCell s1 1 = some 7 ∧
      (s1.cells 7).belStrength = PlaceStrength.STRENGTH_USER ∧
      ∃ s2, unbindBel s1 1 = some s2 ∧
        checkBelAvail s2 1 = true ∧ getBoundBelCell s2 1 = none ∧
        (s2.cells 7).belStrength = PlaceStrength.STRENGTH_NONE :=
  C5_bel_bind_unbind_roundtrip initState 1 7 PlaceStrength.STRENGTH_USER
    (by decide) rfl

/-- C6, as stated, is false: this `bindPip` call succeeds on the fresh
architecture yet leaves the notification log empty — `bindPip` (and
`unbindPip`) contain no `refreshUi*` call, unlike the bel and wire
operations. -/
theorem C6_counterexample_bindPip_no_notification :
    applyOp dev0 initState (Op.opBindPip 5 3 PlaceStrength.STRENGTH_WEAK) = some c6State ∧
      c6State.notifications = [] :=
  ⟨rfl, rfl⟩

/-- C6 (amended): every successful `bindBel`/`unbindBel` fires exactly one
`refreshUiBel` notification and every successful `bindWire`/`unbindWire`
exactly one `refreshUiWire` notification, while successful `bindPip` and
`unbindPip` fire no observer notification at all. -/
theorem C6_notifications_exactly_on_bel_and_wire_ops (A : Device)
    {s s' : ArchState} (op : Op) (h : applyOp A s op = some s') :
    s'.notifications = s.notifications ++ notificationsOf op := by
  cases op with
  | opBindBel b c st =>
      obtain ⟨-, -, rfl⟩ := bindBel_eq_some h
      rfl
  | opUnbindBel b =>
      obtain ⟨-, c, -, rfl⟩ := unbindBel_eq_some h
      rfl
  | opBindWire w n st =>
      obtain ⟨-, -, rfl⟩ := bindWire_eq_some h
      rfl
  | opUnbindWire w =>
      obtain ⟨-, n, e, -, -, rfl⟩ := unbindWire_eq_some h
      rfl
  | opBindPip p n st =>
      obtain ⟨-, -, -, rfl⟩ := bindPip_eq_some h
      exact (List.append_nil _).symm
  | opUnbindPip p =>
      obtain ⟨-, n, n2, -, -, rfl⟩ := unbindPip_eq_some h
      exact (List.append_nil _).symm

/-- Witness for the amended C6 at a concrete successful `bindBel`. -/
theorem C6_notifications_exactly_on_bel_and_wire_ops_witness :
    c6WitnessState.notifications =
      initState.notifications ++
        notificationsOf (Op.opBindBel 1 7 PlaceStrength.STRENGTH_WEAK) :=
  C6_notifications_exactly_on_bel_and_wire_ops dev0
    (Op.opBindBel 1 7 PlaceStrength.STRENGTH_WEAK) rfl

/-- C7: binding an already-bound resource, unbinding an unbound one,
passing the null handle to any bind/unbind, or querying a cell-type or
bucket accessor before its initialisation step, is always fatal (`none`
in this model, where `none` is the aborted `NPNR_ASSERT`), never an error
value or a silent no-op. -/
theorem C7_contract_violations_fatal (A : Device) (s : ArchState)
    (bst : BucketIndexState) :
    (∀ b c st, getBoundBelCell s b ≠ none → bindBel s b c st = none) ∧
    (∀ b, getBoundBelCell s b = none → unbindBel s b = none) ∧
    (∀ w n st, getBoundWireNet s w ≠ none → bindWire s w n st = none) ∧
    (∀ w, getBoundWireNet s w = none → unbindWire s w = none) ∧
    (∀ p n st, getBoundPipNet s p ≠ none → bindPip A s p n st = none) ∧
    (∀ p, getBoundPipNet s p = none → unbindPip A s p = none) ∧
    (∀ c st, bindBel s 0 c st = none) ∧ unbindBel s 0 = none ∧
    (∀ n st, bindWire s 0 n st = none) ∧ unbindWire s 0 = none ∧
    (∀ n st, bindPip A s 0 n st = none) ∧ unbindPip A s 0 = none ∧
    (bst.cell_types_initialised = false → getCellTypes bst = none) ∧
    (bst.bel_buckets_initialised = false →
      getBelBuckets bst = none ∧ ∀ k, getBelsInBucket bst k = none) := by
  refine ⟨?_, ?_, ?_, ?_, ?_, ?_, ?_, ?_, ?_, ?_, ?_, ?_, ?_, ?_⟩
  · intro b c st h
    unfold bindBel
    by_cases hb0 : b = 0
    · simp [hb0]
    · rw [if_neg hb0]
      cases hfnd : s.base_bel2cell b with
      | none => exact absurd hfnd h
      | some c0 => rfl
  · intro b h
    have h' : s.base_bel2cell b = none := h
    unfold unbindBel
    by_cases hb0 : b = 0
    · simp [hb0]
    · rw [if_neg hb0, h']
  · intro w n st h
    unfold bindWire
    by_cases hw0 : w = 0
    · simp [hw0]
    · rw [if_neg hw0]
      cases hfnd : s.base_wire2net w with
      | none => exact absurd hfnd h
      | some n0 => rfl
  · intro w h
    have h' : s.base_wire2net w = none := h
    unfold unbindWire
    by_cases hw0 : w = 0
    · simp [hw0]
    · rw [if_neg hw0, h']
  · intro p n st h
    unfold bindPip
    by_cases hp0 : p = 0
    · simp [hp0]
    · rw [if_neg hp0]
      cases hfnd : s.base_pip2net p with
      | none => exact absurd hfnd h
      | some n0 => rfl
  · intro p h
    have h' : s.base_pip2net p = none := h
    unfold unbindPip
    by_cases hp0 : p = 0
    · simp [hp0]
    · rw [if_neg hp0, h']
  · intro c st
    rfl
  · rfl
  · intro n st
    rfl
  · rfl
  · intro n st
    rfl
  · rfl
  · intro h
    unfold getCellTypes
    rw [h]
    rfl
  · intro h
    refine ⟨?_, ?_⟩
    · unfold getBelBuckets
      rw [h]
      rfl
    · intro k
      unfold getBelsInBucket
      rw [h]
      rfl

/-- Witness for C7: rebinding bound bel 1 is fatal, unbinding unbound bel
2 is fatal, null-handle bind is fatal, and the three index accessors are
fatal on the uninitialised index state. -/
theorem C7_contract_violations_fatal_witness :
    bindBel c7State 1 9 PlaceStrength.STRENGTH_WEAK = none ∧
    unbindBel c7State 2 = none ∧
    bindBel c7State 0 9 PlaceStrength.STRENGTH_WEAK = none ∧
    getCellTypes initialBucketState = none ∧
    getBelBuckets initialBucketState = none ∧
    getBelsInBucket initialBucketState "LUT" = none :=
  ⟨(C7_contract_violations_fatal dev0 c7State initialBucketState).1 1 9
      PlaceStrength.STRENGTH_WEAK (by decide),
   (C7_contract_violations_fatal dev0 c7State initialBucketState).2.1 2 rfl,
   (C7_contract_violations_fatal dev0 c7State initialBucketState).2.2.2.2.2.2.1 9
      PlaceStrength.STRENGTH_WEAK,
   (C7_contract_violations_fatal dev0 c7State initialBucketState).2.2.2.2.2.2.2.2.2.2.2.2.1 rfl,
   ((C7_contract_violations_fatal dev0 c7State
      initialBucketState).2.2.2.2.2.2.2.2.2.2.2.2.2 rfl).1,
   ((C7_contract_violations_fatal dev0 c7State
      initialBucketState).2.2.2.2.2.2.2.2.2.2.2.2.2 rfl).2 "LUT"⟩

theorem charListLeb_total : ∀ as bs : List Char,
    charListLeb as bs = true ∨ charListLeb bs as = true := by
  intro as
  induction as with
  | nil => intro bs; left; rfl
  | cons a as ih =>
      intro bs
      cases bs with
      | nil => right; rfl
      | cons b bs =>
          by_cases hab : a.toNat < b.toNat
          · left; simp [charListLeb, hab]
          · by_cases hba : b.toNat < a.toNat
            · right; simp [charListLeb, hba]
            · rcases ih bs with h | h
              · left; simp [charListLeb, hab, hba, h]
              · right; simp [charListLeb, hab, hba, h]

theorem charListLeb_trans : ∀ as bs cs : List Char,
    charListLeb as bs = true → charListLeb bs cs = true →
    charListLeb as cs = true := by
  intro as
  induction as with
  | nil => intro bs cs h1 h2; rfl
  | cons a as ih =>
      intro bs cs h1 h2
      cases bs with
      | nil => simp [charListLeb] at h1
      | cons b bs =>
          cases cs with
          | nil => simp [charListLeb] at h2
          | cons c cs =>
              simp only [charListLeb] at h1 h2 ⊢
              by_cases hab : a.toNat < b.toNat
              · by_cases hbc : b.toNat < c.toNat
                · have hac : a.toNat < c.toNat := by omega
                  simp [hac]
                · by_cases hcb : c.toNat < b.toNat
                  · rw [if_neg hbc, if_pos hcb] at h2
                    simp at h2
                  · have hac : a.toNat < c.toNat := by omega
                    simp [hac]
              · by_cases hba : b.toNat < a.toNat
                · rw [if_neg hab, if_pos hba] at h1
                  simp at h1
                · rw [if_neg hab, if_neg hba] at h1
                  by_cases hbc : b.toNat < c.toNat
                  · have hac : a.toNat < c.toNat := by omega
                    simp [hac]
                  · by_cases hcb : c.toNat < b.toNat
                    · rw [if_neg hbc, if_pos hcb] at h2
                      simp at h2
                    · rw [if_neg hbc, if_neg hcb] at h2
                      have hac : ¬ a.toNat < c.toNat := by omega
                      have hca : ¬ c.toNat < a.toNat := by omega
                      simp [hac, hca, ih bs cs h1 h2]

theorem keysOf_assocTouch (m : List (IdString × List BelId)) (k : IdString) :
    keysOf (assocTouch m k) =
      if k ∈ keysOf m then keysOf m else keysOf m ++ [k] := by
  induction m with
  | nil => simp [assocTouch, keysOf]
  | cons hd rest ih =>
      obtain ⟨k', v⟩ := hd
      by_cases hk : k' = k
      · subst hk
        simp [assocTouch, keysOf]
      · have hk2 : k ≠ k' := fun h => hk h.symm
        simp only [assocTouch, if_neg hk, keysOf, List.map_cons]
        simp only [keysOf] at ih
        rw [ih]
        by_cases hm : k ∈ List.map Prod.fst rest
        · simp [hm, hk2]
        · simp [hm, hk2]

theorem keysOf_assocPush (m : List (IdString × List BelId)) (k : IdString)
    (b : BelId) :
    keysOf (assocPush m k b) =
      if k ∈ keysOf m then keysOf m else keysOf m ++ [k] := by
  induction m with
  | nil => simp [assocPush, keysOf]
  | cons hd rest ih =>
      obtain ⟨k', v⟩ := hd
      by_cases hk : k' = k
      · subst hk
        simp [assocPush, keysOf]
      · have hk2 : k ≠ k' := fun h => hk h.symm
        simp only [assocPush, if_neg hk, keysOf, List.map_cons]
        simp only [keysOf] at ih
        rw [ih]
        by_cases hm : k ∈ List.map Prod.fst rest
        · simp [hm, hk2]
        · simp [hm, hk2]

theorem nodup_keysOf_assocTouch {m : List (IdString × List BelId)}
    (h : (keysOf m).Nodup) (k : IdString) : (keysOf (assocTouch m k)).Nodup := by
  rw [keysOf_assocTouch]
  by_cases hm : k ∈ keysOf m
  · simpa [hm] using h
  · simp [hm, List.nodup_append, h]

theorem nodup_keysOf_assocPush {m : List (IdString × List BelId)}
    (h : (keysOf m).Nodup) (k : IdString) (b : BelId) :
    (keysOf (assocPush m k b)).Nodup := by
  rw [keysOf_assocPush]
  by_cases hm : k ∈ keysOf m
  · simpa [hm] using h
  · simp [hm, List.nodup_append, h]

theorem valsJoin_assocTouch (m : List (IdString × List BelId)) (k : IdString) :
    valsJoin (assocTouch m k) = valsJoin m := by
  induction m with
  | nil => simp [assocTouch, valsJoin]
  | cons hd rest ih =>
      obtain ⟨k', v⟩ := hd
      by_cases hk : k' = k
      · subst hk
        simp [assocTouch, valsJoin]
      · simp only [assocTouch, if_neg hk, valsJoin, List.map_cons, List.flatten_cons]
        simp only [valsJoin] at ih
        rw [ih]

theorem valsJoin_assocPush (m : List (IdString × List BelId)) (k : IdString)
    (b : BelId) : List.Perm (valsJoin (assocPush m k b)) (valsJoin m ++ [b]) := by
  induction m with
  | nil => simp [assocPush, valsJoin]
  | cons hd rest ih =>
      obtain ⟨k', v⟩ := hd
      by_cases hk : k' = k
      · subst hk
        have hred : assocPush ((k', v) :: rest) k' b = (k', v ++ [b]) :: rest := by
          simp [assocPush]
        rw [hred]
        simp only [valsJoin, List.map_cons, List.flatten_cons]
        rw [List.append_assoc, List.append_assoc]
        exact List.Perm.append_left v List.perm_append_comm
      · simp only [assocPush, if_neg hk, valsJoin, List.map_cons, List.flatten_cons]
        simp only [valsJoin] at ih
        rw [List.append_assoc]
        exact List.Perm.append_left v ih

theorem valsJoin_foldl_assocTouch (cts : List IdString) :
    ∀ m, valsJoin (cts.foldl assocTouch m) = valsJoin m := by
  induction cts with
  | nil => intro m; rfl
  | cons t ts ih =>
      intro m
      simp only [List.foldl_cons]
      rw [ih, valsJoin_assocTouch]

theorem nodup_keysOf_foldl_assocTouch (cts : List IdString) :
    ∀ m, (keysOf m).Nodup → (keysOf (cts.foldl assocTouch m)).Nodup := by
  induction cts with
  | nil => intro m h; exact h
  | cons t ts ih =>
      intro m h
      simp only [List.foldl_cons]
      exact ih _ (nodup_keysOf_assocTouch h t)

theorem valsJoin_foldl_assocPush (f : BelId → IdString) (bels : List BelId) :
    ∀ m, List.Perm (valsJoin (bels.foldl (fun m b => assocPush m (f b) b) m))
      (valsJoin m ++ bels) := by
  induction bels with
  | nil => intro m; simp
  | cons b bs ih =>
      intro m
      simp only [List.foldl_cons]
      have h1 := ih (assocPush m (f b) b)
      have h2 := (valsJoin_assocPush m (f b) b).append_right bs
      have h3 : (valsJoin m ++ [b]) ++ bs = valsJoin m ++ (b :: bs) := by
        rw [List.append_assoc]
        rfl
      rw [← h3]
      exact h1.trans h2

theorem nodup_keysOf_foldl_assocPush (f : BelId → IdString) (bels : List BelId) :
    ∀ m, (keysOf m).Nodup →
      (keysOf (bels.foldl (fun m b => assocPush m (f b) b) m)).Nodup := by
  induction bels with
  | nil => intro m h; exact h
  | cons b bs ih =>
      intro m h
      simp only [List.foldl_cons]
      exact ih _ (nodup_keysOf_assocPush h (f b) b)

/-- C9: after `init_cell_types` and `init_bel_buckets` have run on the
complete bel set, the cell types are sorted and duplicate-free, the
bucket ids are sorted and distinct, the concatenation of all buckets' bel
lists is a permutation of the full bel set (each bel exactly once), and
the spec's scenario — bels A=1, B=2 of type LUT, C=3 of type FF — yields
cell types `["FF", "LUT"]` and buckets `FF = [3]`, `LUT = [1, 2]`. -/
theorem C9_bucket_classifier_partitions (bels : List BelId)
    (belType : BelId → IdString) :
    (init_cell_types bels belType).Sorted idLe ∧
    (init_cell_types bels belType).Nodup ∧
    ((init_bel_buckets (init_cell_types bels belType) bels belType).2.Sorted idLe ∧
      (init_bel_buckets (init_cell_types bels belType) bels belType).2.Nodup) ∧
    List.Perm
      (valsJoin (init_bel_buckets (init_cell_types bels belType) bels belType).1)
      bels ∧
    (init_cell_types demoBels demoBelType = ["FF", "LUT"] ∧
      init_bel_buckets (init_cell_types demoBels demoBelType) demoBels demoBelType =
        ([("FF", [3]), ("LUT", [1, 2])], ["FF", "LUT"])) := by
  haveI : IsTotal IdString idLe :=
    ⟨fun a b => charListLeb_total a.data b.data⟩
  haveI : IsTrans IdString idLe :=
    ⟨fun a b c => charListLeb_trans a.data b.data c.data⟩
  refine ⟨?_, ?_, ⟨?_, ?_⟩, ?_, by decide, by decide⟩
  · exact List.sorted_insertionSort idLe _
  · exact ((List.perm_insertionSort idLe _).nodup_iff).mpr (List.nodup_dedup _)
  · exact List.sorted_insertionSort idLe _
  · exact ((List.perm_insertionSort idLe _).nodup_iff).mpr
      (nodup_keysOf_foldl_assocPush (getBelBucketForBel belType) bels
        (List.foldl assocTouch [] (init_cell_types bels belType))
        (nodup_keysOf_foldl_assocTouch (init_cell_types bels belType) []
          (by simp [keysOf])))
  · dsimp only [init_bel_buckets]
    have h1 := valsJoin_foldl_assocPush (getBelBucketForBel belType) bels
      (List.foldl assocTouch [] (init_cell_types bels belType))
    rw [valsJoin_foldl_assocTouch] at h1
    simpa [valsJoin] using h1

theorem bel_none_step {A : Device} {s s' : ArchState} {op : Op} {b : BelId}
    (h : applyOp A s op = some s') (hnb : bindsBel b op = false)
    (h0 : s.base_bel2cell b = none) : s'.base_bel2cell b = none := by
  cases op with
  | opBindBel b' c st =>
      obtain ⟨-, -, rfl⟩ := bindBel_eq_some h
      simp only [bindsBel, beq_eq_false_iff_ne, ne_eq] at hnb
      dsimp only
      rw [fupd_ne _ _ _ _ (fun hbb => hnb hbb.symm)]
      exact h0
  | opUnbindBel b' =>
      obtain ⟨-, c, -, rfl⟩ := unbindBel_eq_some h
      dsimp only
      by_cases hbb : b = b'
      · subst hbb
        rw [fupd_same]
      · rw [fupd_ne _ _ _ _ hbb]
        exact h0
  | opBindWire w n st =>
      obtain ⟨-, -, rfl⟩ := bindWire_eq_some h
      exact h0
  | opUnbindWire w =>
      obtain ⟨-, n, e, -, -, rfl⟩ := unbindWire_eq_some h
      exact h0
  | opBindPip p n st =>
      obtain ⟨-, -, -, rfl⟩ := bindPip_eq_some h
      exact h0
  | opUnbindPip p =>
      obtain ⟨-, n, n2, -, -, rfl⟩ := unbindPip_eq_some h
      exact h0

theorem wire_none_step {A : Device} {s s' : ArchState} {op : Op} {w : WireId}
    (h : applyOp A s op = some s') (hnw : bindsWire A w op = false)
    (h0 : s.base_wire2net w = none) : s'.base_wire2net w = none := by
  cases op with
  | opBindBel b' c st =>
      obtain ⟨-, -, rfl⟩ := bindBel_eq_some h
      exact h0
  | opUnbindBel b' =>
      obtain ⟨-, c, -, rfl⟩ := unbindBel_eq_some h
      exact h0
  | opBindWire w' n st =>
      obtain ⟨-, -, rfl⟩ := bindWire_eq_some h
      simp only [bindsWire, beq_eq_false_iff_ne, ne_eq] at hnw
      dsimp only
      rw [fupd_ne _ _ _ _ (fun hww => hnw hww.symm)]
      exact h0
  | opUnbindWire w' =>
      obtain ⟨-, n, e, -, -, rfl⟩ := unbindWire_eq_some h
      dsimp only
      by_cases hww : w = w'
      · subst hww
        rw [fupd_same]
      · rw [fupd_ne _ _ _ _ hww]
        exact h0
  | opBindPip p n st =>
      obtain ⟨-, -, -, rfl⟩ := bindPip_eq_some h
      simp only [bindsWire, beq_eq_false_iff_ne, ne_eq] at hnw
      dsimp only
      rw [fupd_ne _ _ _ _ (fun hww => hnw hww.symm)]
      exact h0
  | opUnbindPip p =>
      obtain ⟨-, n, n2, -, -, rfl⟩ := unbindPip_eq_some h
      dsimp only
      by_cases hww : w = A.getPipDstWire p
      · subst hww
        rw [fupd_same]
      · rw [fupd_ne _ _ _ _ hww]
        exact h0

theorem pip_none_step {A : Device} {s s' : ArchState} {op : Op} {p : PipId}
    (h : applyOp A s op = some s') (hnp : bindsPip p op = false)
    (h0 : s.base_pip2net p = none) : s'.base_pip2net p = none := by
  cases op with
  | opBindBel b' c st =>
      obtain ⟨-, -, rfl⟩ := bindBel_eq_some h
      exact h0
  | opUnbindBel b' =>
      obtain ⟨-, c, -, rfl⟩ := unbindBel_eq_some h
      exact h0
  | opBindWire w' n st =>
      obtain ⟨-, -, rfl⟩ := bindWire_eq_some h
      exact h0
  | opUnbindWire w' =>
      obtain ⟨-, n, e, -, -, rfl⟩ := unbindWire_eq_some h
      dsimp only
      by_cases hz : e.pip = 0
      · rw [if_pos hz]
        exact h0
      · rw [if_neg hz]
        by_cases hpp : p = e.pip
        · subst hpp
          rw [fupd_same]
        · rw [fupd_ne _ _ _ _ hpp]
          exact h0
  | opBindPip p' n st =>
      obtain ⟨-, -, -, rfl⟩ := bindPip_eq_some h
      simp only [bindsPip, beq_eq_false_iff_ne, ne_eq] at hnp
      dsimp only
      rw [fupd_ne _ _ _ _ (fun hpp => hnp hpp.symm)]
      exact h0
  | opUnbindPip p' =>
      obtain ⟨-, n, n2, -, -, rfl⟩ := unbindPip_eq_some h
      dsimp only
      by_cases hpp : p = p'
      · subst hpp
        rw [fupd_same]
      · rw [fupd_ne _ _ _ _ hpp]
        exact h0

theorem runOps_preserves_unbound {A : Device} {b w p : Nat} :
    ∀ (ops : List Op) (s0 s : ArchState), runOps A s0 ops = some s →
      (∀ op ∈ ops, bindsBel b op = false) →
      (∀ op ∈ ops, bindsWire A w op = false) →
      (∀ op ∈ ops, bindsPip p op = false) →
      s0.base_bel2cell b = none → s0.base_wire2net w = none →
      s0.base_pip2net p = none →
      s.base_bel2cell b = none ∧ s.base_wire2net w = none ∧
        s.base_pip2net p = none := by
  intro ops
  induction ops with
  | nil =>
      intro s0 s h _ _ _ h1 h2 h3
      cases h
      exact ⟨h1, h2, h3⟩
  | cons op ops ih =>
      intro s0 s h hb hw hp h1 h2 h3
      simp only [runOps] at h
      cases happ : applyOp A s0 op with
      | none => rw [happ] at h; cases h
      | some s1 =>
          rw [happ] at h
          refine ih s1 s h (fun o ho => hb o (List.mem_cons_of_mem _ ho))
            (fun o ho => hw o (List.mem_cons_of_mem _ ho))
            (fun o ho => hp o (List.mem_cons_of_mem _ ho))
            (bel_none_step happ (hb op (List.mem_cons_self _ _)) h1)
            (wire_none_step happ (hw op (List.mem_cons_self _ _)) h2)
            (pip_none_step happ (hp op (List.mem_cons_self _ _)) h3)

/-- C10: a bel, wire or pip that no operation of a successful run ever
bound — and in particular every resource of the freshly constructed
architecture, before any index initialisation — reports a null owner and
positive availability; these queries read only the binding tables, never
the bucket index state or its initialisation flags, and are total
(`Option`-free), unlike the bucket/type accessors. -/
theorem C10_never_bound_queries_null_and_available (A : Device)
    (ops : List Op) (s : ArchState) (h : runOps A initState ops = some s)
    (b w p : Nat)
    (hb : ∀ op ∈ ops, bindsBel b op = false)
    (hw : ∀ op ∈ ops, bindsWire A w op = false)
    (hp : ∀ op ∈ ops, bindsPip p op = false) :
    getBoundBelCell s b = none ∧ checkBelAvail s b = true ∧
    getBoundWireNet s w = none ∧ checkWireAvail s w = true ∧
    getBoundPipNet s p = none ∧ checkPipAvail s p = true := by
  obtain ⟨h1, h2, h3⟩ :=
    runOps_preserves_unbound ops initState s h hb hw hp rfl rfl rfl
  refine ⟨h1, ?_, h2, ?_, h3, ?_⟩
  · simp [checkBelAvail, getBoundBelCell, h1]
  · simp [checkWireAvail, getBoundWireNet, h2]
  · simp [checkPipAvail, getBoundPipNet, h3]

/-- Witness for C10: bel 2, wire 10 and pip 6 are never bound during
`c10Ops`, so they stay unowned and available. -/
theorem C10_never_bound_queries_null_and_available_witness :
    getBoundBelCell c10State 2 = none ∧ checkBelAvail c10State 2 = true ∧
    getBoundWireNet c10State 10 = none ∧ checkWireAvail c10State 10 = true ∧
    getBoundPipNet c10State 6 = none ∧ checkPipAvail c10State 6 = true :=
  C10_never_bound_queries_null_and_available dev0 c10Ops c10State rfl 2 10 6
    (by decide) (by decide) (by decide)

end BaseArchModel

